import Mathlib

/-!
Shallow embedding of the CougarFanz chunked resumable upload protocol:
the server-side upload session store of MediaHubClient
(src/server/services/unifiedAIGatewayService.ts), the Express route
handlers in front of it (src/shared/monitoring/SelfHealingSystem.ts),
and the client-side upload orchestrator hook (src/unnamed/part_004).
The embedding follows the standalone (MediaHub disconnected) code
paths, which are the local-fallback branches the spec describes;
behaviour that depends on a live remote MediaHub (network responses)
is outside the embedding.

Machine numbers are modelled as Nat / Int with explicit reduction
modulo 2 ^ 32 inside the hash primitives; byte strings are lists of
Nat below 256.  The Node crypto digests used by the source
(sha256 for the forensic signature and the file hash, md5 for the
chunk etag) are implemented in full.
-/

namespace CougarFanz

/-! ### Bytes and hex encoding -/

/-- One machine word modulus, 2 ^ 32. -/
def w32 : Nat := 4294967296

/-- Addition modulo 2 ^ 32. -/
def add32 (a b : Nat) : Nat := (a + b) % w32

/-- Bitwise complement of a 32-bit value (valid for inputs below 2 ^ 32). -/
def bnot32 (x : Nat) : Nat := 4294967295 - x

/-- Right-rotation of a 32-bit value by n places. -/
def rotr32 (n x : Nat) : Nat := ((x >>> n) ||| (x <<< (32 - n))) % w32

/-- Left-rotation of a 32-bit value by n places. -/
def rotl32 (n x : Nat) : Nat := ((x <<< n) % w32) ||| (x >>> (32 - n))

/-- The lowercase hexadecimal alphabet used by Node digest hex. -/
def hexChars : List Char :=
  "0123456789abcdef".toList

/-- Two hex characters for one byte. -/
def byteToHex (b : Nat) : List Char :=
  [hexChars.getD (b / 16 % 16) '0', hexChars.getD (b % 16) '0']

/-- Hex encoding of a byte string, as Node digest hex produces it. -/
def bytesToHex (bs : List Nat) : String :=
  ⟨(bs.map byteToHex).flatten⟩

/-- UTF-8 bytes of a string, as Node crypto update(payload) consumes it. -/
def strBytes (s : String) : List Nat :=
  s.toUTF8.toList.map (fun b => b.toNat)

/-- Big-endian 4-byte serialisation of a 32-bit word. -/
def wordBytesBE (x : Nat) : List Nat :=
  [x >>> 24 % 256, x >>> 16 % 256, x >>> 8 % 256, x % 256]

/-- Little-endian 4-byte serialisation of a 32-bit word. -/
def wordBytesLE (x : Nat) : List Nat :=
  [x % 256, x >>> 8 % 256, x >>> 16 % 256, x >>> 24 % 256]

/-- Big-endian 8-byte serialisation of a 64-bit length. -/
def lenBytesBE (n : Nat) : List Nat :=
  [n >>> 56 % 256, n >>> 48 % 256, n >>> 40 % 256, n >>> 32 % 256,
   n >>> 24 % 256, n >>> 16 % 256, n >>> 8 % 256, n % 256]

/-- Little-endian 8-byte serialisation of a 64-bit length. -/
def lenBytesLE (n : Nat) : List Nat :=
  [n % 256, n >>> 8 % 256, n >>> 16 % 256, n >>> 24 % 256,
   n >>> 32 % 256, n >>> 40 % 256, n >>> 48 % 256, n >>> 56 % 256]

/-- Split a byte string into 64-byte blocks. -/
def chunksOf64 : List Nat → List (List Nat)
  | [] => []
  | x :: xs => (x :: xs).take 64 :: chunksOf64 ((x :: xs).drop 64)
termination_by l => l.length
decreasing_by simp [List.length_drop]; omega

/-! ### SHA-256 (Node crypto createHash sha256) -/

/-- SHA-256 working state: eight 32-bit words. -/
structure Hash8 where
  a : Nat
  b : Nat
  c : Nat
  d : Nat
  e : Nat
  f : Nat
  g : Nat
  h : Nat
deriving Repr, DecidableEq

/-- SHA-256 round constants. -/
def sha256K : List Nat :=
  [1116352408, 1899447441, 3049323471, 3921009573, 961987163, 1508970993,
   2453635748, 2870763221, 3624381080, 310598401, 607225278, 1426881987,
   1925078388, 2162078206, 2614888103, 3248222580, 3835390401, 4022224774,
   264347078, 604807628, 770255983, 1249150122, 1555081692, 1996064986,
   2554220882, 2821834349, 2952996808, 3210313671, 3336571891, 3584528711,
   113926993, 338241895, 666307205, 773529912, 1294757372, 1396182291,
   1695183700, 1986661051, 2177026350, 2456956037, 2730485921, 2820302411,
   3259730800, 3345764771, 3516065817, 3600352804, 4094571909, 275423344,
   430227734, 506948616, 659060556, 883997877, 958139571, 1322822218,
   1537002063, 1747873779, 1955562222, 2024104815, 2227730452, 2361852424,
   2428436474, 2756734187, 3204031479, 3329325298]

/-- SHA-256 initial state. -/
def sha256H0 : Hash8 :=
  ⟨1779033703, 3144134277, 1013904242, 2773480762,
   1359893119, 2600822924, 528734635, 1541459225⟩

/-- Message padding: 128, zeros to 56 mod 64, then the big-endian bit length. -/
def sha256Pad (msg : List Nat) : List Nat :=
  msg ++ [128] ++ List.replicate ((119 - msg.length % 64) % 64) 0
      ++ lenBytesBE (msg.length * 8)

/-- The sixteen big-endian 32-bit words of one 64-byte block. -/
def wordsOfBlockBE (block : List Nat) : List Nat :=
  (List.range 16).map (fun i =>
    ((block.getD (4 * i) 0) <<< 24 + (block.getD (4 * i + 1) 0) <<< 16 +
     (block.getD (4 * i + 2) 0) <<< 8 + block.getD (4 * i + 3) 0) % w32)

/-- One step of the SHA-256 message-schedule extension. -/
def sha256ScheduleStep (w : List Nat) : List Nat :=
  let n := w.length
  let s0 := rotr32 7 (w.getD (n - 15) 0) ^^^ rotr32 18 (w.getD (n - 15) 0) ^^^
            (w.getD (n - 15) 0 >>> 3)
  let s1 := rotr32 17 (w.getD (n - 2) 0) ^^^ rotr32 19 (w.getD (n - 2) 0) ^^^
            (w.getD (n - 2) 0 >>> 10)
  w ++ [(w.getD (n - 16) 0 + s0 + w.getD (n - 7) 0 + s1) % w32]

/-- Full 64-word message schedule of one block. -/
def sha256Schedule (block : List Nat) : List Nat :=
  Nat.rec (wordsOfBlockBE block) (fun _ acc => sha256ScheduleStep acc) 48

/-- One SHA-256 compression round. -/
def sha256Round (st : Hash8) (k wi : Nat) : Hash8 :=
  let s1 := rotr32 6 st.e ^^^ rotr32 11 st.e ^^^ rotr32 25 st.e
  let ch := (st.e &&& st.f) ^^^ (bnot32 st.e &&& st.g)
  let temp1 := (st.h + s1 + ch + k + wi) % w32
  let s0 := rotr32 2 st.a ^^^ rotr32 13 st.a ^^^ rotr32 22 st.a
  let maj := (st.a &&& st.b) ^^^ (st.a &&& st.c) ^^^ (st.b &&& st.c)
  let temp2 := (s0 + maj) % w32
  ⟨(temp1 + temp2) % w32, st.a, st.b, st.c, (st.d + temp1) % w32, st.e, st.f, st.g⟩

/-- SHA-256 compression of one 64-byte block into the running state. -/
def sha256Compress (st : Hash8) (block : List Nat) : Hash8 :=
  let ws := sha256Schedule block
  let t := (List.range 64).foldl
    (fun s i => sha256Round s (sha256K.getD i 0) (ws.getD i 0)) st
  ⟨add32 st.a t.a, add32 st.b t.b, add32 st.c t.c, add32 st.d t.d,
   add32 st.e t.e, add32 st.f t.f, add32 st.g t.g, add32 st.h t.h⟩

/-- SHA-256 final state over a byte string. -/
def sha256Words (msg : List Nat) : Hash8 :=
  (chunksOf64 (sha256Pad msg)).foldl sha256Compress sha256H0

/-- SHA-256 digest as 32 bytes. -/
def sha256Bytes (msg : List Nat) : List Nat :=
  let st := sha256Words msg
  wordBytesBE st.a ++ wordBytesBE st.b ++ wordBytesBE st.c ++ wordBytesBE st.d ++
  wordBytesBE st.e ++ wordBytesBE st.f ++ wordBytesBE st.g ++ wordBytesBE st.h

/-- Node createHash sha256 digest of msg, hex encoded. -/
def sha256hex (msg : List Nat) : String :=
  bytesToHex (sha256Bytes msg)

/-! ### MD5 (Node crypto createHash md5, used for the chunk etag) -/

/-- MD5 working state: four 32-bit words. -/
structure Md5State where
  a : Nat
  b : Nat
  c : Nat
  d : Nat
deriving Repr, DecidableEq

/-- MD5 sine-derived round constants. -/
def md5K : List Nat :=
  [3614090360, 3905402710, 606105819, 3250441966, 4118548399, 1200080426,
   2821735955, 4249261313, 1770035416, 2336552879, 4294925233, 2304563134,
   1804603682, 4254626195, 2792965006, 1236535329, 4129170786, 3225465664,
   643717713, 3921069994, 3593408605, 38016083, 3634488961, 3889429448,
   568446438, 3275163606, 4107603335, 1163531501, 2850285829, 4243563512,
   1735328473, 2368359562, 4294588738, 2272392833, 1839030562, 4259657740,
   2763975236, 1272893353, 4139469664, 3200236656, 681279174, 3936430074,
   3572445317, 76029189, 3654602809, 3873151461, 530742520, 3299628645,
   4096336452, 1126891415, 2878612391, 4237533241, 1700485571, 2399980690,
   4293915773, 2240044497, 1873313359, 4264355552, 2734768916, 1309151649,
   4149444226, 3174756917, 718787259, 3951481745]

/-- MD5 per-round left-rotation amounts. -/
def md5S : List Nat :=
  [7, 12, 17, 22, 7, 12, 17, 22, 7, 12, 17, 22, 7, 12, 17, 22,
   5, 9, 14, 20, 5, 9, 14, 20, 5, 9, 14, 20, 5, 9, 14, 20,
   4, 11, 16, 23, 4, 11, 16, 23, 4, 11, 16, 23, 4, 11, 16, 23,
   6, 10, 15, 21, 6, 10, 15, 21, 6, 10, 15, 21, 6, 10, 15, 21]

/-- MD5 initial state. -/
def md5Init : Md5State := ⟨1732584193, 4023233417, 2562383102, 271733878⟩

/-- MD5 padding: 128, zeros to 56 mod 64, little-endian bit length. -/
def md5Pad (msg : List Nat) : List Nat :=
  msg ++ [128] ++ List.replicate ((119 - msg.length % 64) % 64) 0
      ++ lenBytesLE (msg.length * 8)

/-- The sixteen little-endian 32-bit words of one 64-byte block. -/
def wordsOfBlockLE (block : List Nat) : List Nat :=
  (List.range 16).map (fun i =>
    (block.getD (4 * i) 0 + (block.getD (4 * i + 1) 0) <<< 8 +
     (block.getD (4 * i + 2) 0) <<< 16 + (block.getD (4 * i + 3) 0) <<< 24) % w32)

/-- One MD5 round: mixing function and message index depend on the round number. -/
def md5Round (m : List Nat) (st : Md5State) (i : Nat) : Md5State :=
  let fg : Nat × Nat :=
    if i < 16 then ((st.b &&& st.c) ||| (bnot32 st.b &&& st.d), i)
    else if i < 32 then ((st.d &&& st.b) ||| (bnot32 st.d &&& st.c), (5 * i + 1) % 16)
    else if i < 48 then (st.b ^^^ st.c ^^^ st.d, (3 * i + 5) % 16)
    else (st.c ^^^ (st.b ||| bnot32 st.d), 7 * i % 16)
  let f := (fg.1 + st.a + md5K.getD i 0 + m.getD fg.2 0) % w32
  ⟨st.d, (st.b + rotl32 (md5S.getD i 0) f) % w32, st.b, st.c⟩

/-- MD5 compression of one 64-byte block into the running state. -/
def md5Compress (st : Md5State) (block : List Nat) : Md5State :=
  let m := wordsOfBlockLE block
  let t := (List.range 64).foldl (md5Round m) st
  ⟨add32 st.a t.a, add32 st.b t.b, add32 st.c t.c, add32 st.d t.d⟩

/-- Node createHash md5 digest of msg, hex encoded. -/
def md5hex (msg : List Nat) : String :=
  let st := (chunksOf64 (md5Pad msg)).foldl md5Compress md5Init
  bytesToHex (wordBytesLE st.a ++ wordBytesLE st.b ++ wordBytesLE st.c ++ wordBytesLE st.d)

/-! ### String helpers used by the source -/

/-- JS String.prototype.substring(0, n). -/
def strTake (n : Nat) (s : String) : String :=
  ⟨s.toList.take n⟩

/-- JS String.prototype.toUpperCase (ASCII range, which is all the source feeds it). -/
def strUpper (s : String) : String :=
  ⟨s.toList.map Char.toUpper⟩

/-! ### Server data model (MediaHubClient, unifiedAIGatewayService.ts) -/

/-- PLATFORM_CONFIG.platformId. -/
def platformId : String := "cougarfanz"

/-- CHUNK_SIZE = 5 * 1024 * 1024 (5MB chunks). -/
def CHUNK_SIZE : Int := 5 * 1024 * 1024

/-- 24 hours in milliseconds, the session lifetime added to createdAt. -/
def DAY_MS : Int := 24 * 60 * 60 * 1000

/-- Math.ceil(a / b) on integers, for a positive divisor b (JS Math.ceil of
the exact quotient; JS negative zero is identified with 0). -/
def jsCeilDiv (a b : Int) : Int := -((-a) / b)

/-- UploadSession record (interface UploadSession).  Timestamps are epoch
milliseconds; the s3Key is the string the source builds. -/
structure UploadSession where
  uploadId : String
  platformId : String
  creatorId : String
  filename : String
  fileSize : Int
  mimeType : String
  totalChunks : Int
  completedChunks : Nat
  s3Key : String
  status : String
  forensicSignature : String
  createdAt : Int
  expiresAt : Int
deriving Repr, DecidableEq

/-- MediaAsset record (interface MediaAsset). -/
structure MediaAsset where
  id : String
  platformId : String
  creatorId : String
  originalFilename : String
  fileHash : String
  fileSize : Int
  mimeType : String
  forensicSignature : String
  processingStatus : String
  createdAt : Int
deriving Repr, DecidableEq

/-- ChunkUploadResult record (interface ChunkUploadResult). -/
structure ChunkUploadResult where
  success : Bool
  chunkIndex : Int
  etag : Option String := none
  error : Option String := none
deriving Repr, DecidableEq

/-- The in-memory session map (private uploadSessions: Map of uploadId to
UploadSession), as an association list keyed by uploadId. -/
abbrev Store := List (String × UploadSession)

/-- Map.get: the value stored under the first (and, for stores built by
Map.set, only) occurrence of the key. -/
def mapGet : Store → String → Option UploadSession
  | [], _ => none
  | (k', v) :: rest, k => if k' = k then some v else mapGet rest k

/-- Map.set: replaces the entry in place when the key is present,
otherwise appends. -/
def mapSet : Store → String → UploadSession → Store
  | [], k, v => [(k, v)]
  | (k', v') :: rest, k, v =>
      if k' = k then (k, v) :: rest else (k', v') :: mapSet rest k v

/-- Map.delete. -/
def mapDelete (m : Store) (k : String) : Store :=
  m.filter (fun p => p.1 ≠ k)

/-- The metadata argument of initializeUpload. -/
structure InitMetadata where
  filename : String
  fileSize : Int
  mimeType : String
  creatorId : String
deriving Repr, DecidableEq

/-- MediaHubClient.generateForensicSignature.  The timestamp argument is
the ISO-8601 rendering ts.toISOString() of the Date the source hashes
(Date to string formatting itself is Node library code). -/
def generateForensicSignature (creatorId : String) (tsISO : String) : String :=
  let payload := creatorId ++ "|" ++ platformId ++ "|" ++ tsISO
  let hash := sha256hex (strBytes payload)
  "FANZ-" ++ strUpper (strTake 16 hash)

/-- MediaHubClient.initializeUpload, standalone (local fallback) path.
crypto.randomUUID() and Date.now() are inputs uploadId / now; nowISO is
the ISO rendering of the same instant used by the signature. -/
def initializeUpload (store : Store) (uploadId : String) (now : Int) (nowISO : String)
    (metadata : InitMetadata) : UploadSession × Store :=
  let totalChunks := jsCeilDiv metadata.fileSize CHUNK_SIZE
  let forensicSignature := generateForensicSignature metadata.creatorId nowISO
  let session : UploadSession :=
    { uploadId := uploadId
      platformId := platformId
      creatorId := metadata.creatorId
      filename := metadata.filename
      fileSize := metadata.fileSize
      mimeType := metadata.mimeType
      totalChunks := totalChunks
      completedChunks := 0
      s3Key := "uploads/" ++ platformId ++ "/" ++ uploadId ++ "/" ++ metadata.filename
      status := "in_progress"
      forensicSignature := forensicSignature
      createdAt := now
      expiresAt := now + DAY_MS }
  (session, mapSet store uploadId session)

/-- MediaHubClient.uploadChunk, standalone (local fallback) path: unknown
session fails, otherwise the completedChunks counter is incremented and
an md5 etag of the chunk bytes is returned.  Note the source consults
nothing besides presence in the map: neither expiresAt nor the chunk
index is examined. -/
def uploadChunk (store : Store) (uploadId : String) (chunkIndex : Int)
    (chunkData : List Nat) : ChunkUploadResult × Store :=
  match mapGet store uploadId with
  | none =>
      ({ success := false, chunkIndex := chunkIndex, error := some "Session not found" },
       store)
  | some session =>
      let session' := { session with completedChunks := session.completedChunks + 1 }
      ({ success := true, chunkIndex := chunkIndex, etag := some (md5hex chunkData) },
       mapSet store uploadId session')

/-- MediaHubClient.completeUpload, standalone (local fallback) path.
crypto.randomUUID() for the asset id and the Date.now() of createdAt are
inputs.  The status mutations to completing and completed hit the
session object in the map before it is deleted. -/
def completeUpload (store : Store) (uploadId : String) (assetId : String)
    (now : Int) : Except String MediaAsset × Store :=
  match mapGet store uploadId with
  | none => (Except.error "Upload session not found", store)
  | some session =>
      let sessionCompleting := { session with status := "completing" }
      let store1 := mapSet store uploadId sessionCompleting
      let asset : MediaAsset :=
        { id := assetId
          platformId := platformId
          creatorId := session.creatorId
          originalFilename := session.filename
          fileHash := sha256hex (strBytes uploadId)
          fileSize := session.fileSize
          mimeType := session.mimeType
          forensicSignature := session.forensicSignature
          processingStatus := "pending"
          createdAt := now }
      let sessionCompleted := { sessionCompleting with status := "completed" }
      let store2 := mapSet store1 uploadId sessionCompleted
      (Except.ok asset, mapDelete store2 uploadId)

/-- MediaHubClient.getUploadProgress: purely observational, returns the
progress percentage and status, or none for an unknown id.  The
percentage completedChunks / totalChunks * 100 is modelled in ℚ. -/
def getUploadProgress (store : Store) (uploadId : String) : Option (ℚ × String) :=
  match mapGet store uploadId with
  | none => none
  | some session =>
      some ((session.completedChunks : ℚ) / (session.totalChunks : ℚ) * 100,
            session.status)

/-! ### Store operations as a single step relation -/

/-- One store-mutating operation of the session API. -/
inductive StoreOp where
  | init (uploadId : String) (now : Int) (nowISO : String) (metadata : InitMetadata)
  | chunk (uploadId : String) (chunkIndex : Int) (chunkData : List Nat)
  | complete (uploadId : String) (assetId : String) (now : Int)
deriving Repr, DecidableEq

/-- The store after one operation. -/
def applyOp (store : Store) : StoreOp → Store
  | .init uid now iso md => (initializeUpload store uid now iso md).2
  | .chunk uid i d => (uploadChunk store uid i d).2
  | .complete uid aid now => (completeUpload store uid aid now).2

/-- Does this operation accept a chunk for the given session id?  In the
standalone path a chunk operation succeeds exactly when the session
exists, so on an id present in the store this is the successful
chunk-accept predicate. -/
def isChunkOn (op : StoreOp) (uid : String) : Bool :=
  match op with
  | .chunk u _ _ => u = uid
  | _ => false

/-- Does this operation (re-)initialise the given session id?  The source
draws the id from crypto.randomUUID(), so an init never lands on a live
session id. -/
def isInitOn (op : StoreOp) (uid : String) : Bool :=
  match op with
  | .init u _ _ _ => u = uid
  | _ => false

/-! ### Route handlers (SelfHealingSystem.ts, /api/mediahub) -/

/-- Outcome of the POST /upload/init route: an error response with its
status code and message, or the success payload. -/
inductive InitRouteResult where
  | err (statusCode : Nat) (error : String)
  | ok (session : UploadSession)
deriving Repr, DecidableEq

/-- JS truthiness of a possibly-absent string request field. -/
def truthyStr : Option String → Bool
  | none => false
  | some s => !(s = "")

/-- JS truthiness of a possibly-absent numeric request field
(0 is falsy). -/
def truthyInt : Option Int → Bool
  | none => false
  | some n => !(n = 0)

/-- POST /api/mediahub/upload/init: field-presence check by truthiness,
10GB size cap, then MediaHubClient.initializeUpload.  The request body
fields are Options (absent JSON keys are undefined); userId is the
authenticated user id. -/
def uploadInitRoute (store : Store) (uploadId : String) (now : Int) (nowISO : String)
    (filename : Option String) (fileSize : Option Int) (mimeType : Option String)
    (userId : String) : InitRouteResult × Store :=
  if !(truthyStr filename && truthyInt fileSize && truthyStr mimeType) then
    (.err 400 "Missing required fields: filename, fileSize, mimeType", store)
  else if fileSize.getD 0 > 10 * 1024 * 1024 * 1024 then
    (.err 400 "File too large. Maximum size is 10GB.", store)
  else
    let r := initializeUpload store uploadId now nowISO
      { filename := filename.getD ""
        fileSize := fileSize.getD 0
        mimeType := mimeType.getD ""
        creatorId := userId }
    (.ok r.1, r.2)

/-! ### Client orchestrator (useChunkedUpload hook, src/unnamed/part_004) -/

/-- DEFAULT_CHUNK_SIZE = 5 * 1024 * 1024. -/
def DEFAULT_CHUNK_SIZE : Nat := 5 * 1024 * 1024

/-- MAX_RETRIES = 3. -/
def MAX_RETRIES : Nat := 3

/-- One byte range of the partition built by uploadFile
(index, start, end). -/
structure ChunkRange where
  index : Int
  first : Int
  last : Int
deriving Repr, DecidableEq

/-- The chunks array built by uploadFile: for i below totalChunks,
start = i * chunkSize and end = Math.min(start + chunkSize, file.size). -/
def chunkRanges (totalChunks chunkSize fileSize : Int) : List ChunkRange :=
  (List.range totalChunks.toNat).map (fun (i : Nat) =>
    { index := (i : Int)
      first := (i : Int) * chunkSize
      last := min ((i : Int) * chunkSize + chunkSize) fileSize })

/-- What one transfer attempt of a chunk does, as observed by the retry
loop: a 2xx response, a non-2xx response, a thrown transport error, or a
thrown AbortError. -/
inductive AttemptOutcome where
  | ok
  | reject
  | transportErr
  | abortErr
deriving Repr, DecidableEq

/-- How one call of the client uploadChunk terminates: returns true,
returns false after the while loop exhausts MAX_RETRIES on non-2xx
responses, rethrows the AbortError, or throws the
after-MAX_RETRIES error from the catch block. -/
inductive ChunkCallResult where
  | success
  | returnedFalse
  | rethrownAbort
  | threwAfterRetries
deriving Repr, DecidableEq

/-- The client uploadChunk retry loop (while retries < MAX_RETRIES).
outcomes k is what attempt number k does; retries counts failures so
far, exactly as in the source.  A non-2xx response only increments
retries; a thrown error increments retries and throws once
retries reaches MAX_RETRIES; after the loop the function
returns false. -/
def clientChunkAttempts (outcomes : Nat → AttemptOutcome) :
    Nat → Nat → ChunkCallResult
  | _retries, 0 => .returnedFalse
  | retries, fuel + 1 =>
    match outcomes retries with
    | .ok => .success
    | .abortErr => .rethrownAbort
    | .reject => clientChunkAttempts outcomes (retries + 1) fuel
    | .transportErr =>
        if retries + 1 ≥ MAX_RETRIES then .threwAfterRetries
        else clientChunkAttempts outcomes (retries + 1) fuel

/-- The loop entry point: the while condition retries < MAX_RETRIES means
the loop body runs at most MAX_RETRIES - retries more times, which is the
structural fuel of clientChunkAttempts. -/
def clientChunkLoop (outcomes : Nat → AttemptOutcome) (retries : Nat) : ChunkCallResult :=
  clientChunkAttempts outcomes retries (MAX_RETRIES - retries)

/-- Did the uploadChunk call throw (as opposed to returning a Bool)? -/
def isThrow : ChunkCallResult → Bool
  | .rethrownAbort => true
  | .threwAfterRetries => true
  | _ => false

/-- The per-chunk body of the uploadFile pipeline: processChunk awaits
uploadChunk, discards its Bool result, and counts the chunk completed;
only a thrown error propagates out of the pool loop.  Returns none when
some chunk throws (uploadFile lands in its catch block), some when all
processChunk calls return. -/
def runChunks : List (Nat → AttemptOutcome) → Option Unit
  | [] => some ()
  | o :: rest =>
      if isThrow (clientChunkLoop o 0) then none else runChunks rest

/-- Does uploadFile reach the completeUpload call?  The complete request
is issued exactly when no processChunk call threw; bounded parallelism
does not change that, since any rejected processChunk promise rejects
the awaited Promise.race and sends uploadFile to its catch block before
completion. -/
def uploadFileIssuesComplete (chunkAttempts : List (Nat → AttemptOutcome)) : Bool :=
  (runChunks chunkAttempts).isSome

/-! ### Concrete scenarios (explicit inputs for the claim instances) -/

/-- A 1-byte upload: totalChunks = 1. -/
def exMetadata : InitMetadata :=
  { filename := "clip.mp4", fileSize := 1, mimeType := "video/mp4", creatorId := "creator-1" }

def exISO : String := "1970-01-01T00:00:00.000Z"

def exSession : UploadSession := (initializeUpload [] "u1" 0 exISO exMetadata).1

def exStore : Store := (initializeUpload [] "u1" 0 exISO exMetadata).2

def exStore1 : Store := (uploadChunk exStore "u1" 0 [0]).2

def exStore2 : Store := (uploadChunk exStore1 "u1" 0 [0]).2

def exSession1 : UploadSession :=
  { exSession with completedChunks := exSession.completedChunks + 1 }

/-- A 12 MiB upload: totalChunks = 3; two chunks then uploaded. -/
def exBigMetadata : InitMetadata :=
  { filename := "movie.mp4", fileSize := 12582912, mimeType := "video/mp4",
    creatorId := "creator-2" }

def exBigSession : UploadSession := (initializeUpload [] "u3" 0 exISO exBigMetadata).1

def exBigStore : Store := (initializeUpload [] "u3" 0 exISO exBigMetadata).2

def exBigStore2 : Store :=
  (uploadChunk (uploadChunk exBigStore "u3" 0 [10, 11]).2 "u3" 1 [12, 13]).2

def exBigSession2 : UploadSession :=
  { exBigSession with completedChunks := exBigSession.completedChunks + 1 + 1 }

/-- A negative-size init request body. -/
def exNegSession : UploadSession :=
  (initializeUpload [] "u9" 0 exISO
    { filename := "a.bin", fileSize := -1, mimeType := "video/mp4", creatorId := "c9" }).1

/-- Every transfer attempt of the chunk gets a non-2xx response. -/
def allRejected : Nat → AttemptOutcome := fun _ => .reject

/-- Every transfer attempt of the chunk throws a transport error. -/
def allThrown : Nat → AttemptOutcome := fun _ => .transportErr

/-! ### Lemmas about the session map -/

theorem mapGet_mapSet_self (m : Store) (k : String) (v : UploadSession) :
    mapGet (mapSet m k v) k = some v := by
  induction m with
  | nil => simp [mapSet, mapGet]
  | cons p rest ih =>
      obtain ⟨k', v'⟩ := p
      by_cases hk : k' = k
      · subst hk
        simp [mapSet, mapGet]
      · simpa [mapSet, mapGet, hk] using ih

theorem mapGet_mapSet_ne (m : Store) (k k' : String) (v : UploadSession)
    (h : k' ≠ k) : mapGet (mapSet m k v) k' = mapGet m k' := by
  induction m with
  | nil => simp [mapSet, mapGet, Ne.symm h]
  | cons p rest ih =>
      obtain ⟨k0, v0⟩ := p
      by_cases hk : k0 = k
      · subst hk
        simp [mapSet, mapGet, Ne.symm h]
      · by_cases hk' : k0 = k'
        · subst hk'
          simp [mapSet, mapGet, hk]
        · simpa [mapSet, mapGet, hk, hk'] using ih

theorem mapGet_mapDelete_self (m : Store) (k : String) :
    mapGet (mapDelete m k) k = none := by
  induction m with
  | nil => simp [mapDelete, mapGet]
  | cons p rest ih =>
      obtain ⟨k0, v0⟩ := p
      by_cases hk : k0 = k
      · subst hk
        simpa [mapDelete, mapGet] using ih
      · simpa [mapDelete, mapGet, hk] using ih

theorem mapGet_mapDelete_ne (m : Store) (k k' : String) (h : k' ≠ k) :
    mapGet (mapDelete m k) k' = mapGet m k' := by
  induction m with
  | nil => simp [mapDelete, mapGet]
  | cons p rest ih =>
      obtain ⟨k0, v0⟩ := p
      by_cases hk : k0 = k
      · subst hk
        simpa [mapDelete, mapGet, Ne.symm h] using ih
      · by_cases hk' : k0 = k'
        · subst hk'
          simp [mapDelete, mapGet, hk]
        · simpa [mapDelete, mapGet, hk, hk'] using ih

/-! ### Lemmas about the digest encodings -/

theorem getD_mem_of_mem {α : Type} (l : List α) (n : Nat) (d : α) (hd : d ∈ l) :
    l.getD n d ∈ l := by
  rw [List.getD_eq_getElem?_getD]
  rcases h : l[n]? with _ | a
  · simpa using hd
  · simp [List.getElem?_mem h]

theorem byteToHex_length (b : Nat) : (byteToHex b).length = 2 := rfl

theorem byteToHex_mem (b : Nat) : ∀ c ∈ byteToHex b, c ∈ hexChars := by
  intro c hc
  have h0 : ('0' : Char) ∈ hexChars := by decide
  simp only [byteToHex, List.mem_cons, List.not_mem_nil, or_false] at hc
  rcases hc with rfl | rfl
  · exact getD_mem_of_mem hexChars _ '0' h0
  · exact getD_mem_of_mem hexChars _ '0' h0

theorem bytesToHex_length (bs : List Nat) :
    (bytesToHex bs).length = 2 * bs.length := by
  induction bs with
  | nil => rfl
  | cons b rest ih =>
      simp only [bytesToHex, String.length, List.map_cons, List.flatten_cons,
        List.length_append, byteToHex_length, List.length_cons] at ih ⊢
      omega

theorem bytesToHex_mem (bs : List Nat) :
    ∀ c ∈ (bytesToHex bs).toList, c ∈ hexChars := by
  induction bs with
  | nil => intro c hc; cases hc
  | cons b rest ih =>
      intro c hc
      simp only [bytesToHex, String.toList, List.map_cons, List.flatten_cons,
        List.mem_append] at hc ih
      rcases hc with h | h
      · exact byteToHex_mem b c h
      · exact ih c h

theorem sha256Bytes_length (msg : List Nat) : (sha256Bytes msg).length = 32 := by
  simp [sha256Bytes, wordBytesBE]

theorem sha256hex_length (msg : List Nat) : (sha256hex msg).length = 64 := by
  rw [sha256hex, bytesToHex_length, sha256Bytes_length]

theorem sha256hex_mem (msg : List Nat) :
    ∀ c ∈ (sha256hex msg).toList, c ∈ hexChars :=
  bytesToHex_mem (sha256Bytes msg)

/-! ### Lemmas about ceiling division and the chunk partition -/

theorem jsCeilDiv_bounds (f c : Int) (hc : 0 < c) :
    c * (jsCeilDiv f c - 1) < f ∧ f ≤ c * jsCeilDiv f c := by
  have h1 := Int.ediv_add_emod (-f) c
  have h2 := Int.emod_nonneg (-f) (ne_of_gt hc)
  have h3 := Int.emod_lt_of_pos (-f) hc
  unfold jsCeilDiv
  constructor <;> nlinarith [h1, h2, h3]

theorem jsCeilDiv_pos (f c : Int) (hf : 0 < f) (hc : 0 < c) :
    1 ≤ jsCeilDiv f c := by
  have h := (jsCeilDiv_bounds f c hc).2
  nlinarith [h]

theorem jsCeilDiv_eq_ceil (f c : Int) (hc : 0 < c) :
    jsCeilDiv f c = ⌈(f : ℚ) / (c : ℚ)⌉ := by
  obtain ⟨h1, h2⟩ := jsCeilDiv_bounds f c hc
  have hcq : (0 : ℚ) < (c : ℚ) := by exact_mod_cast hc
  have h1q : (c : ℚ) * ((jsCeilDiv f c : ℚ) - 1) < (f : ℚ) := by exact_mod_cast h1
  have h2q : (f : ℚ) ≤ (c : ℚ) * (jsCeilDiv f c : ℚ) := by exact_mod_cast h2
  symm
  rw [Int.ceil_eq_iff]
  constructor
  · rw [lt_div_iff₀ hcq]
    nlinarith
  · rw [div_le_iff₀ hcq]
    nlinarith

theorem list_range_map_sum (n : Nat) (g : Nat → Int) :
    ∑ j ∈ Finset.range n, g j = ((List.range n).map g).sum := by
  induction n with
  | zero => rfl
  | succ m ih =>
      rw [Finset.sum_range_succ, ih, List.range_succ]
      rw [List.map_append, List.sum_append, List.map_cons, List.map_nil]
      rw [List.sum_cons, List.sum_nil, add_zero]

theorem chunkRanges_length_sum (f c : Int) (hf : 0 < f) (hc : 0 < c) :
    ((chunkRanges (jsCeilDiv f c) c f).map (fun r => r.last - r.first)).sum = f := by
  obtain ⟨hlt, hle⟩ := jsCeilDiv_bounds f c hc
  have htc : 1 ≤ jsCeilDiv f c := jsCeilDiv_pos f c hf hc
  have htcn : ((jsCeilDiv f c).toNat : Int) = jsCeilDiv f c := Int.toNat_of_nonneg (by omega)
  rw [chunkRanges, List.map_map]
  rw [show ((fun r : ChunkRange => r.last - r.first) ∘ fun i : Nat =>
        ChunkRange.mk (i : Int) ((i : Int) * c) (min ((i : Int) * c + c) f)) =
      (fun i : Nat => min ((i : Int) * c + c) f - (i : Int) * c) from rfl]
  rw [← list_range_map_sum]
  have hcongr : ∀ i ∈ Finset.range (jsCeilDiv f c).toNat,
      min ((i : Int) * c + c) f - (i : Int) * c =
        (fun j : Nat => min ((j : Int) * c) f) (i + 1) -
        (fun j : Nat => min ((j : Int) * c) f) i := by
    intro i hi
    have hi' : (i : Int) < jsCeilDiv f c := by
      have := Finset.mem_range.mp hi
      omega
    have hstart : (i : Int) * c ≤ f := by nlinarith
    simp only
    rw [min_eq_left hstart]
    push_cast
    ring_nf
  rw [Finset.sum_congr rfl hcongr]
  simp only [Finset.sum_range_sub (fun j : Nat => min ((j : Int) * c) f)]
  simp only [Nat.cast_zero, zero_mul, htcn]
  rw [min_eq_left (by nlinarith : 0 ≤ f), min_eq_right (by nlinarith : f ≤ jsCeilDiv f c * c)]
  omega

/-! ### Step lemmas for the store operations -/

theorem uploadChunk_found (store : Store) (uid : String) (i : Int) (d : List Nat)
    (s : UploadSession) (hs : mapGet store uid = some s) :
    uploadChunk store uid i d =
      ({ success := true, chunkIndex := i, etag := some (md5hex d) },
       mapSet store uid { s with completedChunks := s.completedChunks + 1 }) := by
  unfold uploadChunk
  rw [hs]

theorem uploadChunk_notFound (store : Store) (uid : String) (i : Int) (d : List Nat)
    (hs : mapGet store uid = none) :
    uploadChunk store uid i d =
      ({ success := false, chunkIndex := i, error := some "Session not found" },
       store) := by
  unfold uploadChunk
  rw [hs]

theorem completeUpload_found (store : Store) (uid aid : String) (now : Int)
    (s : UploadSession) (hs : mapGet store uid = some s) :
    completeUpload store uid aid now =
      (Except.ok
        { id := aid
          platformId := platformId
          creatorId := s.creatorId
          originalFilename := s.filename
          fileHash := sha256hex (strBytes uid)
          fileSize := s.fileSize
          mimeType := s.mimeType
          forensicSignature := s.forensicSignature
          processingStatus := "pending"
          createdAt := now },
       mapDelete (mapSet (mapSet store uid { s with status := "completing" }) uid
         { s with status := "completed" }) uid) := by
  unfold completeUpload
  rw [hs]

theorem completeUpload_notFound (store : Store) (uid aid : String) (now : Int)
    (hs : mapGet store uid = none) :
    completeUpload store uid aid now = (Except.error "Upload session not found", store) := by
  unfold completeUpload
  rw [hs]

theorem getUploadProgress_found (store : Store) (uid : String) (s : UploadSession)
    (hs : mapGet store uid = some s) :
    getUploadProgress store uid =
      some ((s.completedChunks : ℚ) / (s.totalChunks : ℚ) * 100, s.status) := by
  unfold getUploadProgress
  rw [hs]

theorem getUploadProgress_notFound (store : Store) (uid : String)
    (hs : mapGet store uid = none) : getUploadProgress store uid = none := by
  unfold getUploadProgress
  rw [hs]

theorem chunkRanges_last_length (f c : Int) (hf : 0 < f) (hc : 0 < c) :
    ((chunkRanges (jsCeilDiv f c) c f).getLast?).map (fun r => r.last - r.first) =
      some (f - (jsCeilDiv f c - 1) * c) := by
  obtain ⟨hlt, hle⟩ := jsCeilDiv_bounds f c hc
  have htc : 1 ≤ jsCeilDiv f c := jsCeilDiv_pos f c hf hc
  have htcn : ((jsCeilDiv f c).toNat : Int) = jsCeilDiv f c := Int.toNat_of_nonneg (by omega)
  obtain ⟨n, hn⟩ : ∃ n, (jsCeilDiv f c).toNat = n + 1 := by
    refine ⟨(jsCeilDiv f c).toNat - 1, ?_⟩
    omega
  have hncast : ((n : Int)) = jsCeilDiv f c - 1 := by omega
  rw [chunkRanges, hn, List.range_succ, List.map_append]
  simp only [List.map_cons, List.map_nil]
  rw [List.getLast?_concat]
  simp only [Option.map_some']
  have hminf : min ((n : Int) * c + c) f = f := by
    rw [min_eq_right]
    rw [hncast]
    nlinarith
  rw [hminf, hncast]

/-! ### Claim C1 -/

/-- C1, counterexample: in the 1-byte session (totalChunks = 1) the chunk at
index 0 is accepted twice, and the second accept pushes completedChunks to 2,
past totalChunks = 1.  The claim that completedChunks never exceeds
totalChunks, and that a re-uploaded chunkIndex cannot push it past
totalChunks, is false of the code. -/
theorem uploadChunk_reupload_exceeds_totalChunks :
    (mapGet exStore2 "u1").map UploadSession.completedChunks = some 2 ∧
    (mapGet exStore2 "u1").map UploadSession.totalChunks = some 1 ∧
    (uploadChunk exStore1 "u1" 0 [0]).1.success = true := by
  refine ⟨rfl, ?_, rfl⟩
  decide

/-- C1, amended: across init, uploadChunk and completeUpload, the
completedChunks counter of a session is mutated only by successful
chunk-accept operations, each adding exactly 1 (hence it is monotone); but
nothing bounds it by totalChunks, so re-uploading an accepted chunkIndex
pushes it past totalChunks (see the counterexample).  The freshness
hypothesis reflects that init ids come from crypto.randomUUID() and never
collide with a live session. -/
theorem completedChunks_incremented_only_by_chunk_accept
    (store : Store) (op : StoreOp) (uid : String) (s s' : UploadSession)
    (hs : mapGet store uid = some s)
    (hfresh : isInitOn op uid = false)
    (hs' : mapGet (applyOp store op) uid = some s') :
    s'.completedChunks = s.completedChunks + (if isChunkOn op uid then 1 else 0) ∧
    s.completedChunks ≤ s'.completedChunks := by
  have main : s'.completedChunks = s.completedChunks +
      (if isChunkOn op uid then 1 else 0) := by
    cases op with
    | init uid2 now iso md =>
        have hne : uid ≠ uid2 := by
          intro h
          subst h
          simp [isInitOn] at hfresh
        have hget : mapGet (applyOp store (.init uid2 now iso md)) uid = mapGet store uid := by
          show mapGet (mapSet store uid2 _) uid = mapGet store uid
          exact mapGet_mapSet_ne store uid2 uid _ hne
        rw [hget, hs] at hs'
        injection hs' with h2
        simp [isChunkOn, ← h2]
    | chunk uid2 i d =>
        by_cases huid : uid2 = uid
        · subst huid
          have h2 : applyOp store (.chunk uid2 i d) =
              mapSet store uid2 { s with completedChunks := s.completedChunks + 1 } := by
            show (uploadChunk store uid2 i d).2 = _
            rw [uploadChunk_found store uid2 i d s hs]
          rw [h2, mapGet_mapSet_self] at hs'
          injection hs' with h3
          simp [isChunkOn, ← h3]
        · rcases hfind : mapGet store uid2 with _ | t
          · have h2 : applyOp store (.chunk uid2 i d) = store := by
              show (uploadChunk store uid2 i d).2 = store
              rw [uploadChunk_notFound store uid2 i d hfind]
            rw [h2, hs] at hs'
            injection hs' with h3
            simp [isChunkOn, huid, ← h3]
          · have h2 : applyOp store (.chunk uid2 i d) =
                mapSet store uid2 { t with completedChunks := t.completedChunks + 1 } := by
              show (uploadChunk store uid2 i d).2 = _
              rw [uploadChunk_found store uid2 i d t hfind]
            rw [h2, mapGet_mapSet_ne store uid2 uid _ (fun h => huid h.symm), hs] at hs'
            injection hs' with h3
            simp [isChunkOn, huid, ← h3]
    | complete uid2 aid now =>
        by_cases huid : uid2 = uid
        · subst huid
          have h2 : applyOp store (.complete uid2 aid now) =
              mapDelete (mapSet (mapSet store uid2 { s with status := "completing" }) uid2
                { s with status := "completed" }) uid2 := by
            show (completeUpload store uid2 aid now).2 = _
            rw [completeUpload_found store uid2 aid now s hs]
          rw [h2, mapGet_mapDelete_self] at hs'
          cases hs'
        · have hne : uid ≠ uid2 := fun h => huid h.symm
          rcases hfind : mapGet store uid2 with _ | t
          · have h2 : applyOp store (.complete uid2 aid now) = store := by
              show (completeUpload store uid2 aid now).2 = store
              rw [completeUpload_notFound store uid2 aid now hfind]
            rw [h2, hs] at hs'
            injection hs' with h3
            simp [isChunkOn, ← h3]
          · have h2 : applyOp store (.complete uid2 aid now) =
                mapDelete (mapSet (mapSet store uid2 { t with status := "completing" }) uid2
                  { t with status := "completed" }) uid2 := by
              show (completeUpload store uid2 aid now).2 = _
              rw [completeUpload_found store uid2 aid now t hfind]
            rw [h2, mapGet_mapDelete_ne _ _ _ hne, mapGet_mapSet_ne _ _ _ _ hne,
              mapGet_mapSet_ne _ _ _ _ hne, hs] at hs'
            injection hs' with h3
            simp [isChunkOn, ← h3]
  refine ⟨main, ?_⟩
  rw [main]
  split <;> omega

/-- C1 witness: the amended theorem applied to the concrete accepted chunk
upload on the 1-byte session. -/
theorem completedChunks_incremented_only_by_chunk_accept_witness :
    (mapGet exStore "u1" = some exSession ∧
     isInitOn (StoreOp.chunk "u1" 0 [0]) "u1" = false ∧
     mapGet (applyOp exStore (StoreOp.chunk "u1" 0 [0])) "u1" = some exSession1) ∧
    (exSession1.completedChunks = exSession.completedChunks +
        (if isChunkOn (StoreOp.chunk "u1" 0 [0]) "u1" then 1 else 0) ∧
     exSession.completedChunks ≤ exSession1.completedChunks) :=
  ⟨⟨rfl, rfl, rfl⟩,
   completedChunks_incremented_only_by_chunk_accept exStore (StoreOp.chunk "u1" 0 [0])
     "u1" exSession exSession1 rfl rfl rfl⟩

/-! ### Claim C2 -/

/-- C2: in standalone mode, completeUpload on any session present in the
store finalizes without verifying chunk coverage — no hypothesis relates
completedChunks to totalChunks, so it succeeds in particular when
completedChunks < totalChunks.  It returns a MediaAsset with
processingStatus pending whose forensicSignature equals that of the session,
deletes the session from the store, and afterwards both uploadChunk and
completeUpload on the same uploadId fail as unknown-session with the
store unchanged, so at most one MediaAsset is ever created per session. -/
theorem completeUpload_finalizes_and_deletes_session
    (store : Store) (uid aid : String) (now : Int) (s : UploadSession)
    (hs : mapGet store uid = some s) :
    ∃ asset : MediaAsset, ∃ store' : Store,
      completeUpload store uid aid now = (Except.ok asset, store') ∧
      asset.processingStatus = "pending" ∧
      asset.forensicSignature = s.forensicSignature ∧
      asset.fileSize = s.fileSize ∧
      mapGet store' uid = none ∧
      (∀ i d, uploadChunk store' uid i d =
        ({ success := false, chunkIndex := i, error := some "Session not found" },
         store')) ∧
      (∀ aid2 now2, completeUpload store' uid aid2 now2 =
        (Except.error "Upload session not found", store')) := by
  refine ⟨_, _, completeUpload_found store uid aid now s hs, rfl, rfl, rfl, ?_, ?_, ?_⟩
  · exact mapGet_mapDelete_self _ _
  · intro i d
    exact uploadChunk_notFound _ _ i d (mapGet_mapDelete_self _ _)
  · intro aid2 now2
    exact completeUpload_notFound _ _ aid2 now2 (mapGet_mapDelete_self _ _)

/-- C2 witness: the theorem applied to the 12 MiB session holding only 2 of
its 3 chunks, so finalization here really did happen with
completedChunks < totalChunks. -/
theorem completeUpload_finalizes_and_deletes_session_witness :
    (mapGet exBigStore2 "u3" = some exBigSession2 ∧
     (exBigSession2.completedChunks : Int) < exBigSession2.totalChunks) ∧
    (∃ asset : MediaAsset, ∃ store' : Store,
      completeUpload exBigStore2 "u3" "asset-1" 999 = (Except.ok asset, store') ∧
      asset.processingStatus = "pending" ∧
      asset.forensicSignature = exBigSession2.forensicSignature ∧
      asset.fileSize = exBigSession2.fileSize ∧
      mapGet store' "u3" = none ∧
      (∀ i d, uploadChunk store' "u3" i d =
        ({ success := false, chunkIndex := i, error := some "Session not found" },
         store')) ∧
      (∀ aid2 now2, completeUpload store' "u3" aid2 now2 =
        (Except.error "Upload session not found", store'))) :=
  ⟨⟨rfl, by decide⟩,
   completeUpload_finalizes_and_deletes_session exBigStore2 "u3" "asset-1" 999
     exBigSession2 rfl⟩

/-! ### Claim C3 -/

/-- C3 (code bug): when all MAX_RETRIES = 3 attempts of a chunk fail with
non-2xx server rejections, the client uploadChunk exits its while loop and
returns false — but processChunk discards that Boolean, counts the chunk
completed, and uploadFile then issues the completion request anyway.  Only
when the final failing attempt is a thrown transport error does the upload
fail and the complete call get skipped (last two conjuncts). -/
theorem reject_exhaustion_still_issues_complete :
    clientChunkLoop allRejected 0 = ChunkCallResult.returnedFalse ∧
    uploadFileIssuesComplete [allRejected] = true ∧
    clientChunkLoop allThrown 0 = ChunkCallResult.threwAfterRetries ∧
    uploadFileIssuesComplete [allThrown] = false :=
  ⟨rfl, rfl, rfl, rfl⟩

/-! ### Claim C4 -/

/-- C4: the session init computes totalChunks = ceil(fileSize / chunkSize)
(at the server constant CHUNK_SIZE), and for any positive fileSize and chunkSize
the client byte-range partition into that many chunks has lengths
summing exactly to fileSize, the last range having length
fileSize - (totalChunks - 1) * chunkSize. -/
theorem chunk_partition_math (fileSize chunkSize : Int)
    (store : Store) (uid : String) (now : Int) (iso fn mt cid : String)
    (hf : 0 < fileSize) (hc : 0 < chunkSize) :
    (initializeUpload store uid now iso
      { filename := fn, fileSize := fileSize, mimeType := mt,
        creatorId := cid }).1.totalChunks = jsCeilDiv fileSize CHUNK_SIZE ∧
    jsCeilDiv fileSize chunkSize = ⌈(fileSize : ℚ) / (chunkSize : ℚ)⌉ ∧
    ((chunkRanges (jsCeilDiv fileSize chunkSize) chunkSize fileSize).map
        (fun r => r.last - r.first)).sum = fileSize ∧
    ((chunkRanges (jsCeilDiv fileSize chunkSize) chunkSize fileSize).getLast?).map
        (fun r => r.last - r.first) =
      some (fileSize - (jsCeilDiv fileSize chunkSize - 1) * chunkSize) :=
  ⟨rfl,
   jsCeilDiv_eq_ceil fileSize chunkSize hc,
   chunkRanges_length_sum fileSize chunkSize hf hc,
   chunkRanges_last_length fileSize chunkSize hf hc⟩

/-- C4 witness: the partition math at the concrete 12 MiB file with the
5 MiB chunk size. -/
theorem chunk_partition_math_witness :
    ((0 : Int) < 12582912 ∧ (0 : Int) < CHUNK_SIZE) ∧
    ((initializeUpload [] "u3" 0 exISO
      { filename := "movie.mp4", fileSize := 12582912, mimeType := "video/mp4",
        creatorId := "creator-2" }).1.totalChunks = jsCeilDiv 12582912 CHUNK_SIZE ∧
    jsCeilDiv 12582912 CHUNK_SIZE = ⌈((12582912 : Int) : ℚ) / ((CHUNK_SIZE : Int) : ℚ)⌉ ∧
    ((chunkRanges (jsCeilDiv 12582912 CHUNK_SIZE) CHUNK_SIZE 12582912).map
        (fun r => r.last - r.first)).sum = 12582912 ∧
    ((chunkRanges (jsCeilDiv 12582912 CHUNK_SIZE) CHUNK_SIZE 12582912).getLast?).map
        (fun r => r.last - r.first) =
      some (12582912 - (jsCeilDiv 12582912 CHUNK_SIZE - 1) * CHUNK_SIZE)) :=
  ⟨⟨by decide, by decide⟩,
   chunk_partition_math 12582912 CHUNK_SIZE [] "u3" 0 exISO "movie.mp4" "video/mp4"
     "creator-2" (by decide) (by decide)⟩

/-! ### Claim C5 -/

/-- C5 (code bug): the session records expiresAt = createdAt + 24h
(here createdAt = 0 ms, expiresAt = 86400000 ms), but uploadChunk consults
no clock and checks nothing besides presence in the map, so a chunk sent at
any instant after expiresAt is still accepted and still increments the
counter: the expiry recorded by the store is never enforced. -/
theorem uploadChunk_accepts_after_expiry :
    (mapGet exStore "u1").map UploadSession.expiresAt = some 86400000 ∧
    (uploadChunk exStore "u1" 0 [0]).1.success = true ∧
    (mapGet (uploadChunk exStore "u1" 0 [0]).2 "u1").map UploadSession.completedChunks
      = some 1 :=
  ⟨rfl, rfl, rfl⟩

/-! ### Claim C6 -/

/-- C6, counterexample: two uploads of the same session differing only in
the uploaded chunk bytes ([0] versus [255]) finalize to assets with the
same fileHash, which is the sha256 digest of the uploadId string — the
hash is not derived from the uploaded content and does not vary with it. -/
theorem fileHash_constant_across_contents :
    ([0] : List Nat) ≠ [255] ∧
    (completeUpload (uploadChunk exStore "u1" 0 [0]).2 "u1" "a1" 99).1.toOption.map
        MediaAsset.fileHash =
      (completeUpload (uploadChunk exStore "u1" 0 [255]).2 "u1" "a1" 99).1.toOption.map
        MediaAsset.fileHash ∧
    (completeUpload (uploadChunk exStore "u1" 0 [0]).2 "u1" "a1" 99).1.toOption.map
        MediaAsset.fileHash = some (sha256hex (strBytes "u1")) :=
  ⟨by decide, rfl, rfl⟩

/-- C6, amended: the fileHash recorded on the returned MediaAsset is the
sha256 hex digest of the uploadId string — deterministic per session and
unique per uploadId, but independent of the uploaded bytes (standalone mode
never stores chunk data). -/
theorem fileHash_is_digest_of_uploadId
    (store : Store) (uid aid : String) (now : Int) (s : UploadSession)
    (hs : mapGet store uid = some s) :
    ((completeUpload store uid aid now).1).toOption.map MediaAsset.fileHash =
      some (sha256hex (strBytes uid)) := by
  rw [completeUpload_found store uid aid now s hs]
  rfl

/-- C6 witness: the amended theorem at the concrete 1-byte session. -/
theorem fileHash_is_digest_of_uploadId_witness :
    (mapGet exStore "u1" = some exSession) ∧
    ((completeUpload exStore "u1" "a1" 99).1).toOption.map MediaAsset.fileHash =
      some (sha256hex (strBytes "u1")) :=
  ⟨rfl, fileHash_is_digest_of_uploadId exStore "u1" "a1" 99 exSession rfl⟩

/-! ### String-shape helpers for the signature format -/

theorem strUpper_toList (s : String) :
    (strUpper s).toList = s.toList.map Char.toUpper := rfl

theorem strTake_toList (n : Nat) (s : String) :
    (strTake n s).toList = s.toList.take n := rfl

theorem string_length_toList (s : String) : s.length = s.toList.length := rfl

theorem toUpper_mem_upperHex :
    ∀ c ∈ hexChars, Char.toUpper c ∈
      ['0', '1', '2', '3', '4', '5', '6', '7', '8', '9', 'A', 'B', 'C', 'D', 'E', 'F'] := by
  decide

/-! ### Claim C7 -/

/-- C7: generateForensicSignature is deterministic — identical
(creatorId, timestamp) inputs give identical output (the platformId it
hashes is the fixed PLATFORM_CONFIG constant) — and its output is the
string FANZ- followed by exactly 16 uppercase hexadecimal characters,
obtained by truncating and uppercasing the sha256 hex digest of
creatorId|platformId|timestampISO. -/
theorem forensicSignature_deterministic_and_formatted
    (creatorId tsISO creatorId2 tsISO2 : String)
    (h1 : creatorId = creatorId2) (h2 : tsISO = tsISO2) :
    generateForensicSignature creatorId tsISO =
      generateForensicSignature creatorId2 tsISO2 ∧
    generateForensicSignature creatorId tsISO =
      "FANZ-" ++ strUpper (strTake 16 (sha256hex (strBytes
        (creatorId ++ "|" ++ platformId ++ "|" ++ tsISO)))) ∧
    ∃ hexPart : String,
      generateForensicSignature creatorId tsISO = "FANZ-" ++ hexPart ∧
      hexPart.length = 16 ∧
      ∀ c ∈ hexPart.toList,
        c ∈ "0123456789ABCDEF".toList := by
  subst h1
  subst h2
  refine ⟨rfl, rfl, strUpper (strTake 16 (sha256hex (strBytes
    (creatorId ++ "|" ++ platformId ++ "|" ++ tsISO)))), rfl, ?_, ?_⟩
  · rw [string_length_toList, strUpper_toList, strTake_toList, List.length_map,
      List.length_take]
    have h := sha256hex_length (strBytes (creatorId ++ "|" ++ platformId ++ "|" ++ tsISO))
    rw [string_length_toList] at h
    omega
  · intro c hc
    rw [strUpper_toList, strTake_toList] at hc
    obtain ⟨c0, hc0, rfl⟩ := List.mem_map.mp hc
    have hmem : c0 ∈ (sha256hex (strBytes
        (creatorId ++ "|" ++ platformId ++ "|" ++ tsISO))).toList :=
      List.mem_of_mem_take hc0
    exact toUpper_mem_upperHex c0 (sha256hex_mem _ c0 hmem)

/-- C7 witness: the theorem at a concrete creator and timestamp. -/
theorem forensicSignature_deterministic_and_formatted_witness :
    ("creator-1" = "creator-1" ∧ exISO = exISO) ∧
    (generateForensicSignature "creator-1" exISO =
      generateForensicSignature "creator-1" exISO ∧
    generateForensicSignature "creator-1" exISO =
      "FANZ-" ++ strUpper (strTake 16 (sha256hex (strBytes
        ("creator-1" ++ "|" ++ platformId ++ "|" ++ exISO)))) ∧
    ∃ hexPart : String,
      generateForensicSignature "creator-1" exISO = "FANZ-" ++ hexPart ∧
      hexPart.length = 16 ∧
      ∀ c ∈ hexPart.toList,
        c ∈ "0123456789ABCDEF".toList) :=
  ⟨⟨rfl, rfl⟩,
   forensicSignature_deterministic_and_formatted "creator-1" exISO "creator-1" exISO
     rfl rfl⟩

/-! ### Claim C8 -/

/-- C8: getUploadProgress returns none for an unknown uploadId and otherwise
the pair (completedChunks / totalChunks * 100, status); it takes the store
and returns only this observation, mutating nothing.  For a session holding
2 of 3 chunks the percentage is 200/3, within 0.01 of 66.67, with status
in_progress. -/
theorem getUploadProgress_observational (store : Store) (uid : String) :
    (mapGet store uid = none → getUploadProgress store uid = none) ∧
    (∀ s, mapGet store uid = some s →
      getUploadProgress store uid =
        some ((s.completedChunks : ℚ) / (s.totalChunks : ℚ) * 100, s.status) ∧
      (s.completedChunks = 2 → s.totalChunks = 3 →
        (s.completedChunks : ℚ) / (s.totalChunks : ℚ) * 100 = 200 / 3 ∧
        |(200 / 3 : ℚ) - 6667 / 100| < 1 / 100)) := by
  refine ⟨getUploadProgress_notFound store uid, ?_⟩
  intro s hs
  refine ⟨getUploadProgress_found store uid s hs, ?_⟩
  intro h2 h3
  constructor
  · rw [h2, h3]
    push_cast
    norm_num
  · rw [abs_sub_lt_iff]
    norm_num

/-- C8 witness: the theorem at the 12 MiB session with 2 of 3 chunks
uploaded. -/
theorem getUploadProgress_observational_witness :
    (mapGet exBigStore2 "u3" = some exBigSession2 ∧
     exBigSession2.completedChunks = 2 ∧ exBigSession2.totalChunks = 3 ∧
     exBigSession2.status = "in_progress") ∧
    (getUploadProgress exBigStore2 "u3" =
      some ((exBigSession2.completedChunks : ℚ) / (exBigSession2.totalChunks : ℚ) * 100,
            exBigSession2.status) ∧
     (exBigSession2.completedChunks : ℚ) / (exBigSession2.totalChunks : ℚ) * 100 =
       200 / 3 ∧
     |(200 / 3 : ℚ) - 6667 / 100| < 1 / 100) := by
  have h := (getUploadProgress_observational exBigStore2 "u3").2 exBigSession2 rfl
  have h23 := h.2 rfl (by decide)
  exact ⟨⟨rfl, rfl, by decide, rfl⟩, h.1, h23.1, h23.2⟩

/-! ### Claim C9 -/

/-- C9: for an uploadId absent from the store, uploadChunk returns a
structured failure result (success false, error Session not found) rather
than crashing, completeUpload fails with the session-not-found error, and
in both cases the returned store is the input store unchanged. -/
theorem unknown_uploadId_fails_without_mutation (store : Store) (uid : String)
    (h : mapGet store uid = none) :
    (∀ i d, uploadChunk store uid i d =
      ({ success := false, chunkIndex := i, etag := none,
         error := some "Session not found" }, store)) ∧
    (∀ aid now, completeUpload store uid aid now =
      (Except.error "Upload session not found", store)) :=
  ⟨fun i d => uploadChunk_notFound store uid i d h,
   fun aid now => completeUpload_notFound store uid aid now h⟩

/-- C9 witness: the theorem at the store holding only session u1, queried
with the unknown id nope. -/
theorem unknown_uploadId_fails_without_mutation_witness :
    (mapGet exStore "nope" = none) ∧
    uploadChunk exStore "nope" 7 [1, 2] =
      ({ success := false, chunkIndex := 7, etag := none,
         error := some "Session not found" }, exStore) ∧
    completeUpload exStore "nope" "a2" 5 =
      (Except.error "Upload session not found", exStore) :=
  ⟨rfl,
   (unknown_uploadId_fails_without_mutation exStore "nope" rfl).1 7 [1, 2],
   (unknown_uploadId_fails_without_mutation exStore "nope" rfl).2 "a2" 5⟩

/-! ### Claim C10 -/

/-- C10, counterexample: the truthiness check of the init route only rejects
fileSize = 0; a request with fileSize = -1 passes both the field check and
the 10GB cap and creates a session with totalChunks = 0 (Math.ceil of a
negative fraction is negative zero), so route-created sessions with a zero
divisor in getUploadProgress do exist. -/
theorem negative_fileSize_passes_init_validation :
    (uploadInitRoute [] "u9" 0 exISO (some "a.bin") (some (-1)) (some "video/mp4")
        "c9").1 = InitRouteResult.ok exNegSession ∧
    exNegSession.totalChunks = 0 ∧
    exNegSession.fileSize = -1 := by
  refine ⟨rfl, ?_, rfl⟩
  decide

/-- C10, amended: every init request with fileSize = 0 is rejected with the
400 Missing-required-fields error and leaves the store unchanged (the
truthiness check treats 0 as missing), and every session the route creates
from a positive fileSize has totalChunks at least 1, a nonzero divisor for
getUploadProgress; but a negative fileSize passes validation and yields
totalChunks = 0 (see the counterexample). -/
theorem init_route_rejects_zero_fileSize
    (store : Store) (uid : String) (now : Int) (iso fn mt userId : String) (n : Int)
    (hfn : fn ≠ "") (hmt : mt ≠ "") :
    (uploadInitRoute store uid now iso (some fn) (some 0) (some mt) userId =
      (.err 400 "Missing required fields: filename, fileSize, mimeType", store)) ∧
    (0 < n → n ≤ 10 * 1024 * 1024 * 1024 →
      ∃ s : UploadSession, ∃ store' : Store,
        uploadInitRoute store uid now iso (some fn) (some n) (some mt) userId =
          (.ok s, store') ∧ 1 ≤ s.totalChunks ∧ s.totalChunks ≠ 0) := by
  constructor
  · simp [uploadInitRoute, truthyStr, truthyInt, hfn, hmt]
  · intro hn hcap
    refine ⟨(initializeUpload store uid now iso
        { filename := fn, fileSize := n, mimeType := mt, creatorId := userId }).1,
      (initializeUpload store uid now iso
        { filename := fn, fileSize := n, mimeType := mt, creatorId := userId }).2,
      ?_, ?_, ?_⟩
    · simp only [uploadInitRoute, truthyStr, truthyInt, hfn, hmt, hn.ne', not_lt.mpr hcap]
      simp
      omega
    · exact jsCeilDiv_pos n CHUNK_SIZE hn (by norm_num [CHUNK_SIZE])
    · have h := jsCeilDiv_pos n CHUNK_SIZE hn (by norm_num [CHUNK_SIZE])
      show jsCeilDiv n CHUNK_SIZE ≠ 0
      omega

/-- C10 witness: the amended theorem at the concrete request
(a.bin, fileSize 1, video/mp4). -/
theorem init_route_rejects_zero_fileSize_witness :
    ("a.bin" ≠ "" ∧ "video/mp4" ≠ "" ∧ (0 : Int) < 1 ∧
      (1 : Int) ≤ 10 * 1024 * 1024 * 1024) ∧
    (uploadInitRoute [] "u8" 0 exISO (some "a.bin") (some 0) (some "video/mp4") "c8" =
      (.err 400 "Missing required fields: filename, fileSize, mimeType", [])) ∧
    (∃ s : UploadSession, ∃ store' : Store,
      uploadInitRoute [] "u8" 0 exISO (some "a.bin") (some 1) (some "video/mp4") "c8" =
        (.ok s, store') ∧ 1 ≤ s.totalChunks ∧ s.totalChunks ≠ 0) :=
  ⟨⟨by decide, by decide, by decide, by decide⟩,
   (init_route_rejects_zero_fileSize [] "u8" 0 exISO "a.bin" "video/mp4" "c8" 1
     (by decide) (by decide)).1,
   (init_route_rejects_zero_fileSize [] "u8" 0 exISO "a.bin" "video/mp4" "c8" 1
     (by decide) (by decide)).2 (by decide) (by decide)⟩

end CougarFanz
